import Mathlib

/-!
Shallow embedding of Geb.Video.FFMPEG VideoFileReader
(src/src/Geb.Video.FFMPEG/VideoFileReader.h).

The repository ships only the header. The inline members found there are
embedded directly from the source: the metadata property getters Width,
Height, FrameRate, FrameCount, CodecName (each calling
CheckIfVideoFileIsOpen), the unchecked getters IsOpen, CurrentVideoTime,
CurrentAudioTime, VideoCxt, AudioCxt, the finalizer and destructor (both
routed through Close), the one-argument Seek overload delegating to
Seek(time, true), and CheckIfVideoFileIsOpen / CheckIfDisposed themselves.
The bodies of Open, Close, ReadVideoFrame, ReadVideoFrameU8,
ReadAudioFrame, Seek(time, seekKeyFrame), DecodeVideoFrame,
DecodeVideoFrameU8 and FetchVideoFrame live in a .cpp file that is not in
the repository; those are modelled from the specification (sections 4.1 to
4.5) and carry a doc comment saying so.

Times (C++ double seconds) are modelled as rationals; pixel data is
abstracted to a seed value, since the claims only concern dimensions,
timestamps, state and error behavior.
-/

/-- Decidable equality on outcomes, so that the concrete sample runs below
can be checked by evaluation. -/
instance {ε α : Type} [DecidableEq ε] [DecidableEq α] :
    DecidableEq (Except ε α) := fun x y =>
  match x, y with
  | Except.error e, Except.error e' =>
    if h : e = e' then isTrue (by rw [h])
    else isFalse fun hc => h (Except.error.inj hc)
  | Except.ok a, Except.ok b =>
    if h : a = b then isTrue (by rw [h])
    else isFalse fun hc => h (Except.ok.inj hc)
  | Except.error _, Except.ok _ => isFalse fun hc => Except.noConfusion hc
  | Except.ok _, Except.error _ => isFalse fun hc => Except.noConfusion hc

namespace Geb.Video.FFMPEG

/-- A raw decoded video frame: presentation timestamp in seconds, keyframe
flag, and an abstract stand-in for the pixel data. -/
structure RawFrame where
  pts : Rat
  keyFrame : Bool
  pixels : Nat
  deriving DecidableEq, Repr

/-- An encoded audio packet: presentation timestamp and decoded byte data
(bytes abstracted to naturals). -/
structure AudioPacket where
  pts : Rat
  data : List Nat
  deriving DecidableEq, Repr

/-- The video stream side of the open container: the stream of decodable
frames and the index of the next frame to be decoded. -/
structure VideoContext where
  allFrames : List RawFrame
  pos : Nat
  deriving DecidableEq, Repr

/-- The audio stream side of the open container: its packets and the index
of the next packet to be decoded. -/
structure AudioContext where
  packets : List AudioPacket
  pos : Nat
  deriving DecidableEq, Repr

/-- Error taxonomy of the reader (spec section 7). End of stream is
deliberately not a constructor here: it is reported as a distinguished
no-frame result, not an error. -/
inductive VideoError where
  | NotOpenError
  | AlreadyOpenError
  | UnsupportedFormatError
  | DecodeError
  | SeekError
  | ObjectDisposedException
  deriving DecidableEq, Repr

/-- State of a VideoFileReader instance, mirroring the private data members
of the class in VideoFileReader.h (m_width, m_height, m_frameRate,
m_audioBuff, m_codecName, m_framesCount, m_videoTime, m_audioTime,
videoContext, audioContext, disposed). -/
structure VideoFileReader where
  m_width : Int
  m_height : Int
  m_frameRate : Int
  m_audioBuff : Option Nat
  m_codecName : String
  m_framesCount : Int
  m_videoTime : Rat
  m_audioTime : Rat
  videoContext : Option VideoContext
  audioContext : Option AudioContext
  disposed : Bool
  deriving DecidableEq, Repr

/-- Embeds CheckIfVideoFileIsOpen of the header: throws an IOException
(NotOpenError of the spec taxonomy) when videoContext is null. -/
def CheckIfVideoFileIsOpen (r : VideoFileReader) : Except VideoError Unit :=
  if r.videoContext = none then Except.error VideoError.NotOpenError
  else Except.ok ()

/-- Embeds CheckIfDisposed of the header: throws ObjectDisposedException
when the object was already disposed. -/
def CheckIfDisposed (r : VideoFileReader) : Except VideoError Unit :=
  if r.disposed then Except.error VideoError.ObjectDisposedException
  else Except.ok ()

/-- Embeds the Width property getter: CheckIfVideoFileIsOpen, then
return m_width. -/
def Width (r : VideoFileReader) : Except VideoError Int :=
  (CheckIfVideoFileIsOpen r).bind fun _ => Except.ok r.m_width

/-- Embeds the Height property getter: CheckIfVideoFileIsOpen, then
return m_height. -/
def Height (r : VideoFileReader) : Except VideoError Int :=
  (CheckIfVideoFileIsOpen r).bind fun _ => Except.ok r.m_height

/-- Embeds the FrameRate property getter: CheckIfVideoFileIsOpen, then
return m_frameRate. -/
def FrameRate (r : VideoFileReader) : Except VideoError Int :=
  (CheckIfVideoFileIsOpen r).bind fun _ => Except.ok r.m_frameRate

/-- Embeds the FrameCount property getter: CheckIfVideoFileIsOpen, then
return m_framesCount. -/
def FrameCount (r : VideoFileReader) : Except VideoError Int :=
  (CheckIfVideoFileIsOpen r).bind fun _ => Except.ok r.m_framesCount

/-- Embeds the CodecName property getter: CheckIfVideoFileIsOpen, then
return m_codecName. -/
def CodecName (r : VideoFileReader) : Except VideoError String :=
  (CheckIfVideoFileIsOpen r).bind fun _ => Except.ok r.m_codecName

/-- Embeds the IsOpen property getter of the header: it performs no
open-state or disposed check and simply reports whether videoContext is
non-null. -/
def IsOpen (r : VideoFileReader) : Bool :=
  r.videoContext.isSome

/-- The IsOpen getter viewed in the same fallible-access type as the other
property getters, to state that it never fails: its body performs no check,
so the result is always ok. -/
def IsOpenE (r : VideoFileReader) : Except VideoError Bool :=
  Except.ok (IsOpen r)

/-- Embeds the CurrentVideoTime property getter of the header: it performs
no CheckIfVideoFileIsOpen call and returns m_videoTime directly; rendered
in the fallible-access type to compare with the checked getters. -/
def CurrentVideoTime (r : VideoFileReader) : Except VideoError Rat :=
  Except.ok r.m_videoTime

/-- Embeds the CurrentAudioTime property getter of the header: it performs
no CheckIfVideoFileIsOpen call and returns m_audioTime directly. -/
def CurrentAudioTime (r : VideoFileReader) : Except VideoError Rat :=
  Except.ok r.m_audioTime

/-- Embeds the VideoCxt property getter: returns videoContext with no
check. -/
def VideoCxt (r : VideoFileReader) : Option VideoContext :=
  r.videoContext

/-- Embeds the AudioCxt property getter: returns audioContext with no
check. -/
def AudioCxt (r : VideoFileReader) : Option AudioContext :=
  r.audioContext

/-- Modelled from the spec: the VideoFileReader() constructor (its body is
in the missing .cpp file). A fresh reader is closed: all handles null,
counters zero, not disposed. -/
def mkVideoFileReader : VideoFileReader :=
  { m_width := 0
    m_height := 0
    m_frameRate := 0
    m_audioBuff := none
    m_codecName := ""
    m_framesCount := 0
    m_videoTime := 0
    m_audioTime := 0
    videoContext := none
    audioContext := none
    disposed := false }

/-- An input media container file as the spec describes it (section 3
MediaContext, section 6): stream presence, metadata, and the decodable
video frames and audio packets the container holds. -/
structure MediaFile where
  hasVideoStream : Bool
  width : Int
  height : Int
  frameRate : Int
  codecName : String
  framesCount : Int
  videoFrames : List RawFrame
  audioPackets : Option (List AudioPacket)
  deriving DecidableEq, Repr

/-- Modelled from the spec: Open (declared at VideoFileReader.h line 222,
body in the missing .cpp file; spec sections 4.1 and 4.5). Fails with
AlreadyOpenError while already open, leaving the state untouched; fails
with UnsupportedFormatError when no video stream is found; otherwise fills
the metadata and creates both stream contexts. The pair returns the
outcome together with the reader state after the call. -/
def Open (r : VideoFileReader) (f : MediaFile) :
    Except VideoError Unit × VideoFileReader :=
  if IsOpen r then (Except.error VideoError.AlreadyOpenError, r)
  else if f.hasVideoStream = false then
    (Except.error VideoError.UnsupportedFormatError, r)
  else
    (Except.ok (),
      { m_width := f.width
        m_height := f.height
        m_frameRate := f.frameRate
        m_audioBuff := none
        m_codecName := f.codecName
        m_framesCount := f.framesCount
        m_videoTime := 0
        m_audioTime := 0
        videoContext := some { allFrames := f.videoFrames, pos := 0 }
        audioContext := (f.audioPackets).map fun ps => { packets := ps, pos := 0 }
        disposed := r.disposed })

/-- Modelled from the spec: Close (declared at VideoFileReader.h line 254,
body in the missing .cpp file; spec sections 4.1 and 5). Releases the
container handle, both stream contexts and the audio buffer; total, never
fails; releasing already-null resources does nothing. -/
def Close (r : VideoFileReader) : VideoFileReader :=
  { r with videoContext := none, audioContext := none, m_audioBuff := none }

/-- Embeds the finalizer !VideoFileReader of the header: it just calls
Close. -/
def finalizeVideoFileReader (r : VideoFileReader) : VideoFileReader :=
  Close r

/-- Embeds the destructor of the header: it invokes the finalizer, then
sets disposed. -/
def disposeVideoFileReader (r : VideoFileReader) : VideoFileReader :=
  { finalizeVideoFileReader r with disposed := true }

/-- Modelled from the spec: FetchVideoFrame (declared at VideoFileReader.h
line 270, body in the missing .cpp file; spec section 4.2). The shared
decode core: pulls the next decodable frame of the video stream, advancing
the stream position and m_videoTime; end of stream is the distinguished
no-frame result ok none, never an error. -/
def FetchVideoFrame (r : VideoFileReader) :
    Except VideoError (Option RawFrame × VideoFileReader) :=
  match r.videoContext with
  | none => Except.error VideoError.NotOpenError
  | some vc =>
    match vc.allFrames.drop vc.pos with
    | [] => Except.ok (none, r)
    | f :: _ =>
      Except.ok (some f,
        { r with videoContext := some { vc with pos := vc.pos + 1 },
                 m_videoTime := f.pts })

/-- A returned color frame: 3-byte interleaved pixels, with its buffer
dimensions; the pixel contents are abstracted to a seed. -/
structure ImageRgb24 where
  width : Int
  height : Int
  pixelSeed : Nat
  deriving DecidableEq, Repr

/-- A returned grayscale frame: 1 byte per pixel, with its buffer
dimensions; the pixel contents are abstracted to a seed. -/
structure ImageU8 where
  width : Int
  height : Int
  pixelSeed : Nat
  deriving DecidableEq, Repr

/-- Modelled from the spec: the final conversion step of the color path —
rescale and convert the raw frame to an interleaved 3-byte buffer of
exactly the requested dimensions (spec section 4.2). -/
def convertFrameRgb24 (f : RawFrame) (w h : Int) : ImageRgb24 :=
  { width := w, height := h, pixelSeed := f.pixels }

/-- Modelled from the spec: the final conversion step of the grayscale
path — rescale and convert the raw frame to a single-byte buffer of
exactly the requested dimensions (spec section 4.2). -/
def convertFrameU8 (f : RawFrame) (w h : Int) : ImageU8 :=
  { width := w, height := h, pixelSeed := f.pixels }

/-- Modelled from the spec: DecodeVideoFrame (declared at
VideoFileReader.h line 268, body in the missing .cpp file; spec section
4.2). Runs the shared decode core FetchVideoFrame, then applies only the
color conversion step. -/
def DecodeVideoFrame (r : VideoFileReader) (w h : Int) :
    Except VideoError (Option ImageRgb24 × VideoFileReader) :=
  match FetchVideoFrame r with
  | Except.error e => Except.error e
  | Except.ok (none, r') => Except.ok (none, r')
  | Except.ok (some f, r') => Except.ok (some (convertFrameRgb24 f w h), r')

/-- Modelled from the spec: DecodeVideoFrameU8 (declared at
VideoFileReader.h line 269, body in the missing .cpp file; spec section
4.2). Runs the shared decode core FetchVideoFrame, then applies only the
grayscale conversion step. -/
def DecodeVideoFrameU8 (r : VideoFileReader) (w h : Int) :
    Except VideoError (Option ImageU8 × VideoFileReader) :=
  match FetchVideoFrame r with
  | Except.error e => Except.error e
  | Except.ok (none, r') => Except.ok (none, r')
  | Except.ok (some f, r') => Except.ok (some (convertFrameU8 f w h), r')

/-- Modelled from the spec: the no-argument ReadVideoFrame overload —
decode at the native stream dimensions. -/
def ReadVideoFrame (r : VideoFileReader) :
    Except VideoError (Option ImageRgb24 × VideoFileReader) :=
  DecodeVideoFrame r r.m_width r.m_height

/-- Modelled from the spec: the ReadVideoFrame(width, height) overload —
decode, rescaled to the requested dimensions. -/
def ReadVideoFrameWH (r : VideoFileReader) (w h : Int) :
    Except VideoError (Option ImageRgb24 × VideoFileReader) :=
  DecodeVideoFrame r w h

/-- Modelled from the spec: the no-argument ReadVideoFrameU8 overload. -/
def ReadVideoFrameU8 (r : VideoFileReader) :
    Except VideoError (Option ImageU8 × VideoFileReader) :=
  DecodeVideoFrameU8 r r.m_width r.m_height

/-- Modelled from the spec: the ReadVideoFrameU8(width, height)
overload. -/
def ReadVideoFrameU8WH (r : VideoFileReader) (w h : Int) :
    Except VideoError (Option ImageU8 × VideoFileReader) :=
  DecodeVideoFrameU8 r w h

/-- The prefix of the audio packet list whose timestamps do not exceed the
given bound; stops at, and leaves in place, the first packet exceeding
it. -/
def takeWhilePle (t : Rat) : List AudioPacket → List AudioPacket
  | [] => []
  | p :: ps => if p.pts ≤ t then p :: takeWhilePle t ps else []

/-- The decoded bytes of a run of audio packets, in order. -/
def audioBytes : List AudioPacket → List Nat
  | [] => []
  | p :: ps => p.data ++ audioBytes ps

/-- The audio packets a ReadAudioFrame(true) call would consume in the
given state: those remaining packets whose timestamps do not exceed
m_videoTime, up to the first one that does. -/
def audioPacketsReturned (r : VideoFileReader) : List AudioPacket :=
  match r.audioContext with
  | none => []
  | some ac => takeWhilePle r.m_videoTime (ac.packets.drop ac.pos)

/-- Modelled from the spec: ReadAudioFrame (declared at VideoFileReader.h
line 241, body in the missing .cpp file; spec sections 4.3 and 4.5).
Requires Open state; returns empty when no audio stream exists. With
onlyCurrentVideoFrame true it consumes packets only while their timestamp
does not exceed m_videoTime, leaving the first packet beyond it for the
next call and advancing m_audioTime to the last consumed timestamp; with
false it returns the next packet unconditionally. -/
def ReadAudioFrame (r : VideoFileReader) (onlyCurrentVideoFrame : Bool) :
    Except VideoError (List Nat × VideoFileReader) :=
  match r.videoContext with
  | none => Except.error VideoError.NotOpenError
  | some _ =>
    match r.audioContext with
    | none => Except.ok ([], r)
    | some ac =>
      if onlyCurrentVideoFrame then
        let consumed := takeWhilePle r.m_videoTime (ac.packets.drop ac.pos)
        Except.ok (audioBytes consumed,
          { r with audioContext := some { ac with pos := ac.pos + consumed.length },
                   m_audioTime := consumed.foldl (fun _ p => p.pts) r.m_audioTime })
      else
        match ac.packets.drop ac.pos with
        | [] => Except.ok ([], r)
        | p :: _ =>
          Except.ok (p.data,
            { r with audioContext := some { ac with pos := ac.pos + 1 },
                     m_audioTime := p.pts })

/-- The last keyframe of the frame list with timestamp at or below the
target, together with its index; the accumulator carries the best
candidate seen so far. -/
def lastKeyAux (t : Rat) :
    List RawFrame → Nat → Option (Nat × RawFrame) → Option (Nat × RawFrame)
  | [], _, acc => acc
  | f :: fs, i, acc =>
    lastKeyAux t fs (i + 1)
      (if f.keyFrame = true ∧ f.pts ≤ t then some (i, f) else acc)

/-- The nearest keyframe at or before the target time, with its index in
the stream. -/
def lastKeyFrameAtOrBefore (t : Rat) (fs : List RawFrame) :
    Option (Nat × RawFrame) :=
  lastKeyAux t fs 0 none

/-- The first frame of the list with timestamp at or after the target,
with its index. -/
def firstAtOrAfter (t : Rat) : List RawFrame → Option (Nat × RawFrame)
  | [] => none
  | f :: fs =>
    if t ≤ f.pts then some (0, f)
    else (firstAtOrAfter t fs).map fun p => (p.1 + 1, p.2)

/-- Modelled from the spec: Seek (declared at VideoFileReader.h line 243,
body in the missing .cpp file; spec section 4.4). Seeks backward to the
nearest keyframe at or before the target and, when seekKeyFrame is true,
stops there and returns that keyframe's actual timestamp; when false, it
additionally decodes and discards frames from the keyframe on until it
reaches one with timestamp at or after the target, positioning the stream
at that frame and returning its exact timestamp. Either way both time
trackers reset to the returned timestamp. An unreachable target is a
SeekError. -/
def Seek (r : VideoFileReader) (time : Rat) (seekKeyFrame : Bool) :
    Except VideoError (Rat × VideoFileReader) :=
  match r.videoContext with
  | none => Except.error VideoError.NotOpenError
  | some vc =>
    match lastKeyFrameAtOrBefore time vc.allFrames with
    | none => Except.error VideoError.SeekError
    | some (k, kfr) =>
      if seekKeyFrame then
        Except.ok (kfr.pts,
          { r with videoContext := some { vc with pos := k },
                   m_videoTime := kfr.pts, m_audioTime := kfr.pts })
      else
        match firstAtOrAfter time (vc.allFrames.drop k) with
        | none => Except.error VideoError.SeekError
        | some (j, f) =>
          Except.ok (f.pts,
            { r with videoContext := some { vc with pos := k + j },
                     m_videoTime := f.pts, m_audioTime := f.pts })

/-- Embeds the one-argument Seek overload, inline in the header at lines
245 to 248: return Seek(time, true). -/
def Seek1 (r : VideoFileReader) (time : Rat) :
    Except VideoError (Rat × VideoFileReader) :=
  Seek r time true

/-- The frames of the reader's video stream, empty when closed. -/
def streamFrames (r : VideoFileReader) : List RawFrame :=
  match r.videoContext with
  | none => []
  | some vc => vc.allFrames

/-- A small concrete video stream used to exercise the definitions: four
frames at seconds 0, 1, 2, 3 with keyframes at 0 and 2. -/
def sampleFrames : List RawFrame :=
  [{ pts := 0, keyFrame := true, pixels := 10 },
   { pts := 1, keyFrame := false, pixels := 11 },
   { pts := 2, keyFrame := true, pixels := 12 },
   { pts := 3, keyFrame := false, pixels := 13 }]

/-- A small concrete audio track: packets at seconds 0, 2 and 4. -/
def samplePackets : List AudioPacket :=
  [{ pts := 0, data := [1, 2] }, { pts := 2, data := [3] },
   { pts := 4, data := [4] }]

/-- A concrete media file holding the sample streams. -/
def sampleFile : MediaFile :=
  { hasVideoStream := true
    width := 4
    height := 3
    frameRate := 25
    codecName := "h264"
    framesCount := 4
    videoFrames := sampleFrames
    audioPackets := some samplePackets }

/-- The reader state right after opening the sample file. -/
def sampleReader : VideoFileReader :=
  (Open mkVideoFileReader sampleFile).2

/-- The sample reader after reading two video frames: position 2,
m_videoTime 1. -/
def sampleReaderMid : VideoFileReader :=
  { sampleReader with
      videoContext := some { allFrames := sampleFrames, pos := 2 },
      m_videoTime := 1 }

/-- The sample reader positioned past its last frame: end of stream. -/
def sampleReaderEnd : VideoFileReader :=
  { sampleReader with
      videoContext := some { allFrames := sampleFrames, pos := 4 },
      m_videoTime := 3 }

/-- The expected reader state after Seek to second 3 with seekKeyFrame
false on the freshly opened sample reader. -/
def sampleSeekFalse : VideoFileReader :=
  { sampleReader with
      videoContext := some { allFrames := sampleFrames, pos := 3 },
      m_videoTime := 3, m_audioTime := 3 }

/-- The expected reader state after Seek to second 3 with seekKeyFrame
true on the freshly opened sample reader. -/
def sampleSeekTrue : VideoFileReader :=
  { sampleReader with
      videoContext := some { allFrames := sampleFrames, pos := 2 },
      m_videoTime := 2, m_audioTime := 2 }

/-- The sample reader after one ReadVideoFrame call: position 1,
m_videoTime 0 (the first frame's timestamp). -/
def sampleAfterOneRead : VideoFileReader :=
  { sampleReader with
      videoContext := some { allFrames := sampleFrames, pos := 1 },
      m_videoTime := 0 }

/-- The expected state after ReadAudioFrame(true) on sampleReaderMid: the
packet at second 0 is consumed, the packet at second 2 stays buffered. -/
def sampleAudioAfter : VideoFileReader :=
  { sampleReaderMid with
      audioContext := some { packets := samplePackets, pos := 1 },
      m_audioTime := 0 }

theorem takeWhilePle_mem (t : Rat) :
    ∀ (l : List AudioPacket), ∀ p ∈ takeWhilePle t l, p.pts ≤ t := by
  intro l
  induction l with
  | nil => intro p hp; simp [takeWhilePle] at hp
  | cons q qs ih =>
    intro p hp
    by_cases hq : q.pts ≤ t
    · rw [takeWhilePle, if_pos hq] at hp
      rcases List.mem_cons.mp hp with h | h
      · exact h ▸ hq
      · exact ih p h
    · rw [takeWhilePle, if_neg hq] at hp
      simp at hp

theorem takeWhilePle_foldl_le (t : Rat) :
    ∀ (l : List AudioPacket) (d : Rat), d ≤ t →
      (takeWhilePle t l).foldl (fun _ p => p.pts) d ≤ t := by
  intro l
  induction l with
  | nil => intro d hd; simpa [takeWhilePle] using hd
  | cons q qs ih =>
    intro d hd
    by_cases hq : q.pts ≤ t
    · rw [takeWhilePle, if_pos hq, List.foldl_cons]
      exact ih q.pts hq
    · rw [takeWhilePle, if_neg hq, List.foldl_nil]
      exact hd

theorem lastKeyAux_some (t : Rat) :
    ∀ (fs : List RawFrame) (i : Nat) (acc : Option (Nat × RawFrame))
      (j : Nat) (g : RawFrame),
      lastKeyAux t fs i acc = some (j, g) →
      acc = some (j, g) ∨ (g ∈ fs ∧ g.keyFrame = true ∧ g.pts ≤ t) := by
  intro fs
  induction fs with
  | nil => intro i acc j g h; exact Or.inl h
  | cons f fs ih =>
    intro i acc j g h
    rw [lastKeyAux] at h
    by_cases hc : f.keyFrame = true ∧ f.pts ≤ t
    · rw [if_pos hc] at h
      rcases ih (i + 1) (some (i, f)) j g h with h2 | h2
      · have hg : f = g := congrArg Prod.snd (Option.some.inj h2)
        exact Or.inr ⟨hg ▸ List.mem_cons_self f fs, hg ▸ hc.1, hg ▸ hc.2⟩
      · exact Or.inr ⟨List.mem_cons_of_mem f h2.1, h2.2⟩
    · rw [if_neg hc] at h
      rcases ih (i + 1) acc j g h with h2 | h2
      · exact Or.inl h2
      · exact Or.inr ⟨List.mem_cons_of_mem f h2.1, h2.2⟩

theorem firstAtOrAfter_some (t : Rat) :
    ∀ (fs : List RawFrame) (j : Nat) (f : RawFrame),
      firstAtOrAfter t fs = some (j, f) →
      t ≤ f.pts ∧ ∃ rest, fs.drop j = f :: rest := by
  intro fs
  induction fs with
  | nil => intro j f h; simp [firstAtOrAfter] at h
  | cons g gs ih =>
    intro j f h
    rw [firstAtOrAfter] at h
    by_cases hg : t ≤ g.pts
    · rw [if_pos hg] at h
      have h1 : j = 0 ∧ g = f := by
        have := Option.some.inj h
        exact ⟨(congrArg Prod.fst this).symm, congrArg Prod.snd this⟩
      refine ⟨h1.2 ▸ hg, gs, ?_⟩
      rw [h1.1]
      exact congrArg (fun x => x :: gs) h1.2
    · rw [if_neg hg] at h
      rcases Option.map_eq_some'.mp h with ⟨⟨j', f'⟩, hf, heq⟩
      have hj : j = j' + 1 := (congrArg Prod.fst heq).symm
      have hf' : f' = f := congrArg Prod.snd heq
      rcases ih j' f (hf' ▸ hf) with ⟨hle, rest, hdrop⟩
      exact ⟨hle, rest, by rw [hj, List.drop_succ_cons]; exact hdrop⟩

theorem lastKeyAux_pos (t : Rat) :
    ∀ (fs : List RawFrame) (i : Nat) (acc : Option (Nat × RawFrame))
      (l : List RawFrame) (j : Nat) (g : RawFrame),
      l.drop i = fs →
      (∀ j' g', acc = some (j', g') → ∃ rest, l.drop j' = g' :: rest) →
      lastKeyAux t fs i acc = some (j, g) →
      ∃ rest, l.drop j = g :: rest := by
  intro fs
  induction fs with
  | nil => intro i acc l j g _ hacc hres; exact hacc j g hres
  | cons f fs ih =>
    intro i acc l j g hdrop hacc hres
    rw [lastKeyAux] at hres
    have hdrop' : l.drop (i + 1) = fs := by
      rw [← List.drop_drop 1 i l, hdrop, List.drop_succ_cons, List.drop_zero]
    by_cases hc : f.keyFrame = true ∧ f.pts ≤ t
    · rw [if_pos hc] at hres
      refine ih (i + 1) (some (i, f)) l j g hdrop' ?_ hres
      intro j' g' hsome
      have hj : i = j' := congrArg Prod.fst (Option.some.inj hsome)
      have hg : f = g' := congrArg Prod.snd (Option.some.inj hsome)
      exact ⟨fs, by rw [← hj, hdrop, hg]⟩
    · rw [if_neg hc] at hres
      exact ih (i + 1) acc l j g hdrop' hacc hres

theorem lastKeyAux_ge (t : Rat) :
    ∀ (fs : List RawFrame) (i : Nat) (acc : Option (Nat × RawFrame))
      (j : Nat) (g : RawFrame),
      List.Pairwise (fun a b => a.pts ≤ b.pts) fs →
      lastKeyAux t fs i acc = some (j, g) →
      ∀ g' ∈ fs, g'.keyFrame = true → g'.pts ≤ t → g'.pts ≤ g.pts := by
  intro fs
  induction fs with
  | nil => intro i acc j g _ _ g' hg'; simp at hg'
  | cons f fs ih =>
    intro i acc j g hsort hres g' hg' hkey hle
    rw [lastKeyAux] at hres
    rcases List.pairwise_cons.mp hsort with ⟨hhead, htail⟩
    rcases List.mem_cons.mp hg' with rfl | hmem
    · by_cases hc : g'.keyFrame = true ∧ g'.pts ≤ t
      · rw [if_pos hc] at hres
        rcases lastKeyAux_some t fs (i + 1) (some (i, g')) j g hres
          with hacc | hin
        · have : g' = g := congrArg Prod.snd (Option.some.inj hacc)
          exact this ▸ le_refl g'.pts
        · exact hhead g hin.1
      · exact absurd ⟨hkey, hle⟩ hc
    · by_cases hc : f.keyFrame = true ∧ f.pts ≤ t
      · rw [if_pos hc] at hres
        exact ih (i + 1) (some (i, f)) j g htail hres g' hmem hkey hle
      · rw [if_neg hc] at hres
        exact ih (i + 1) acc j g htail hres g' hmem hkey hle

theorem firstAtOrAfter_min (t : Rat) :
    ∀ (fs : List RawFrame) (j : Nat) (f : RawFrame),
      firstAtOrAfter t fs = some (j, f) →
      ∀ g ∈ fs.take j, g.pts < t := by
  intro fs
  induction fs with
  | nil => intro j f h; simp [firstAtOrAfter] at h
  | cons g0 gs ih =>
    intro j f h g hg
    rw [firstAtOrAfter] at h
    by_cases h0 : t ≤ g0.pts
    · rw [if_pos h0] at h
      have hj : j = 0 := (congrArg Prod.fst (Option.some.inj h)).symm
      rw [hj] at hg
      simp at hg
    · rw [if_neg h0] at h
      rcases Option.map_eq_some'.mp h with ⟨⟨j', f'⟩, hf, heq⟩
      have hj : j = j' + 1 := (congrArg Prod.fst heq).symm
      have hf' : f' = f := congrArg Prod.snd heq
      rw [hj, List.take_succ_cons] at hg
      rcases List.mem_cons.mp hg with rfl | hmem
      · exact lt_of_not_le h0
      · exact ih j' f (hf' ▸ hf) g hmem

theorem seekExact_min (t : Rat) (fs : List RawFrame) (k j : Nat)
    (kfr f : RawFrame)
    (hsort : List.Pairwise (fun a b => a.pts ≤ b.pts) fs)
    (hkpos : ∃ tk, fs.drop k = kfr :: tk)
    (hkle : kfr.pts ≤ t)
    (hfa : firstAtOrAfter t (fs.drop k) = some (j, f)) :
    ∀ g ∈ fs, t ≤ g.pts → f.pts ≤ g.pts := by
  intro g hg hgt
  have hsplit : fs.take k ++ fs.drop k = fs := List.take_append_drop k fs
  have hsort2 : List.Pairwise (fun a b => a.pts ≤ b.pts)
      (fs.take k ++ fs.drop k) := hsplit.symm ▸ hsort
  rcases List.pairwise_append.mp hsort2 with ⟨_, hp2, hcross⟩
  have hg2 : g ∈ fs.take k ++ fs.drop k := by rw [hsplit]; exact hg
  rcases List.mem_append.mp hg2 with hgtake | hgdrop
  · obtain ⟨tk, hdk⟩ := hkpos
    have hgk : g.pts ≤ kfr.pts := by
      refine hcross g hgtake kfr ?_
      rw [hdk]
      exact List.mem_cons_self kfr tk
    have htk : t ≤ kfr.pts := le_trans hgt hgk
    rw [hdk, firstAtOrAfter, if_pos htk] at hfa
    have hf : kfr = f := congrArg Prod.snd (Option.some.inj hfa)
    calc f.pts = kfr.pts := (congrArg RawFrame.pts hf).symm
      _ ≤ t := hkle
      _ ≤ g.pts := hgt
  · have hsplit2 : (fs.drop k).take j ++ (fs.drop k).drop j = fs.drop k :=
      List.take_append_drop j (fs.drop k)
    rw [← hsplit2] at hgdrop
    rcases List.mem_append.mp hgdrop with h1 | h2
    · exact absurd hgt (not_le.mpr (firstAtOrAfter_min t (fs.drop k) j f hfa g h1))
    · rcases firstAtOrAfter_some t (fs.drop k) j f hfa with ⟨_, rest, hdj⟩
      rw [hdj] at h2
      rcases List.mem_cons.mp h2 with rfl | hrest
      · exact le_refl _
      · have hpd : List.Pairwise (fun a b => a.pts ≤ b.pts)
            ((fs.drop k).drop j) :=
          hp2.sublist (List.drop_sublist j (fs.drop k))
        rw [hdj] at hpd
        exact (List.pairwise_cons.mp hpd).1 g hrest

/-- Claim C9: the IsOpen property is accessible in every state, including
closed and disposed readers: it never fails, and it returns true exactly
when the internal video context is non-null. -/
theorem isOpen_total_correct (r : VideoFileReader) :
    IsOpenE r = Except.ok (IsOpen r) ∧
    (IsOpen r = true ↔ r.videoContext ≠ none) := by
  refine ⟨rfl, ?_⟩
  simp [IsOpen, Option.isSome_iff_ne_none]

/-- Witness for C9 at the open sample reader. -/
theorem isOpen_total_correct_witness :
    IsOpenE sampleReader = Except.ok (IsOpen sampleReader) ∧
    (IsOpen sampleReader = true ↔ sampleReader.videoContext ≠ none) :=
  isOpen_total_correct sampleReader

/-- Claim C10: the one-argument Seek overload is extensionally equal to
Seek with seekKeyFrame set to true, in every reader state and for every
target time: the default seek snaps to the keyframe at or before the
target. -/
theorem seek_default_keyframe (r : VideoFileReader) (t : Rat) :
    Seek1 r t = Seek r t true := rfl

/-- Claim C8: the color and grayscale read paths run the identical shared
decode core FetchVideoFrame and differ only in the final pixel-format
conversion: on every input state they consume the same packets and leave
identical reader states (in particular the same m_videoTime), and they
produce a frame in exactly the same cases. -/
theorem decode_paths_share_core (r : VideoFileReader) (w h : Int) :
    (DecodeVideoFrame r w h).map Prod.snd
      = (DecodeVideoFrameU8 r w h).map Prod.snd ∧
    (DecodeVideoFrame r w h).map (fun p => p.1.isSome)
      = (DecodeVideoFrameU8 r w h).map (fun p => p.1.isSome) := by
  rcases hfetch : FetchVideoFrame r with e | ⟨of, r'⟩
  · simp [DecodeVideoFrame, DecodeVideoFrameU8, hfetch, Except.map]
  · cases of <;>
      simp [DecodeVideoFrame, DecodeVideoFrameU8, hfetch, Except.map]

/-- Claim C6: calling Open while the reader is already open fails with
AlreadyOpenError and leaves the reader state unchanged. -/
theorem open_while_open_fails (r : VideoFileReader) (f : MediaFile)
    (h : IsOpen r = true) :
    (Open r f).1 = Except.error VideoError.AlreadyOpenError ∧
    (Open r f).2 = r := by
  simp [Open, h]

/-- Witness for C6: opening the sample file again on the already open
sample reader. -/
theorem open_while_open_fails_witness :
    (Open sampleReader sampleFile).1
      = Except.error VideoError.AlreadyOpenError ∧
    (Open sampleReader sampleFile).2 = sampleReader :=
  open_while_open_fails sampleReader sampleFile (by decide)

/-- Claim C5: Close is idempotent: closing twice equals closing once, the
finalizer path and the explicit path converge on the same teardown, the
destructor performs that same teardown before marking the object disposed,
closing a fully closed (never-opened) reader is a no-op, and Close is
total, never failing. -/
theorem close_idempotent (r : VideoFileReader) :
    Close (Close r) = Close r ∧
    finalizeVideoFileReader r = Close r ∧
    disposeVideoFileReader r = { Close r with disposed := true } ∧
    (r.videoContext = none → r.audioContext = none → r.m_audioBuff = none →
      Close r = r) := by
  refine ⟨rfl, rfl, rfl, ?_⟩
  intro h1 h2 h3
  cases r
  simp_all [Close]

/-- Witness for C5 at a never-opened reader. -/
theorem close_idempotent_witness :
    Close (Close mkVideoFileReader) = Close mkVideoFileReader ∧
    Close mkVideoFileReader = mkVideoFileReader :=
  ⟨(close_idempotent mkVideoFileReader).1,
   (close_idempotent mkVideoFileReader).2.2.2 rfl rfl rfl⟩

/-- Claim C4: on an open reader at end of stream, reading the next video
frame returns the distinguished no-frame result ok none, never an error;
end of stream is likewise absent from the error taxonomy VideoError. -/
theorem read_end_of_stream_no_frame (r : VideoFileReader)
    (vc : VideoContext) (h1 : r.videoContext = some vc)
    (h2 : vc.allFrames.length ≤ vc.pos) :
    ReadVideoFrame r = Except.ok (none, r) ∧
    ReadVideoFrameU8 r = Except.ok (none, r) := by
  have hd : vc.allFrames.drop vc.pos = [] := List.drop_eq_nil_of_le h2
  have hf : FetchVideoFrame r = Except.ok (none, r) := by
    simp [FetchVideoFrame, h1, hd]
  exact ⟨by simp [ReadVideoFrame, DecodeVideoFrame, hf],
         by simp [ReadVideoFrameU8, DecodeVideoFrameU8, hf]⟩

/-- Witness for C4 at the sample reader positioned past its last frame. -/
theorem read_end_of_stream_no_frame_witness :
    ReadVideoFrame sampleReaderEnd = Except.ok (none, sampleReaderEnd) ∧
    ReadVideoFrameU8 sampleReaderEnd = Except.ok (none, sampleReaderEnd) :=
  read_end_of_stream_no_frame sampleReaderEnd
    { allFrames := sampleFrames, pos := 4 } (by decide) (by decide)

/-- Claim C7: when a frame is returned, ReadVideoFrame(width, height) and
ReadVideoFrameU8(width, height) return a buffer whose dimensions equal
exactly the requested width and height. -/
theorem readFrame_requested_dims (r : VideoFileReader) (w h : Int) :
    (∀ img r', ReadVideoFrameWH r w h = Except.ok (some img, r') →
        img.width = w ∧ img.height = h) ∧
    (∀ img r', ReadVideoFrameU8WH r w h = Except.ok (some img, r') →
        img.width = w ∧ img.height = h) := by
  constructor <;> intro img r' hread
  · rw [ReadVideoFrameWH] at hread
    rcases hfetch : FetchVideoFrame r with e | ⟨of, r1⟩ <;>
      simp [DecodeVideoFrame, hfetch] at hread
    cases of with
    | none => simp at hread
    | some f =>
      simp at hread
      rw [← hread.1]
      exact ⟨rfl, rfl⟩
  · rw [ReadVideoFrameU8WH] at hread
    rcases hfetch : FetchVideoFrame r with e | ⟨of, r1⟩ <;>
      simp [DecodeVideoFrameU8, hfetch] at hread
    cases of with
    | none => simp at hread
    | some f =>
      simp at hread
      rw [← hread.1]
      exact ⟨rfl, rfl⟩

/-- Witness for C7: requesting 2 by 5 on the 4 by 3 sample stream yields a
2 by 5 buffer, on both the color and the grayscale path. -/
theorem readFrame_requested_dims_witness :
    (({ width := 2, height := 5, pixelSeed := 10 } : ImageRgb24).width = 2 ∧
     ({ width := 2, height := 5, pixelSeed := 10 } : ImageRgb24).height = 5) ∧
    (({ width := 2, height := 5, pixelSeed := 10 } : ImageU8).width = 2 ∧
     ({ width := 2, height := 5, pixelSeed := 10 } : ImageU8).height = 5) :=
  ⟨(readFrame_requested_dims sampleReader 2 5).1
      { width := 2, height := 5, pixelSeed := 10 } sampleAfterOneRead
      (by decide),
   (readFrame_requested_dims sampleReader 2 5).2
      { width := 2, height := 5, pixelSeed := 10 } sampleAfterOneRead
      (by decide)⟩

/-- Claim C3 (counterexample): on a closed (never-opened) reader, the
CurrentVideoTime, CurrentAudioTime and IsOpen property getters do not fail
with NotOpenError as claimed: their bodies perform no open-state check and
simply return the stored values, so the claim is false on the code. -/
theorem metadata_closed_counterexample :
    IsOpen mkVideoFileReader = false ∧
    ¬ CurrentVideoTime mkVideoFileReader
        = Except.error VideoError.NotOpenError ∧
    ¬ CurrentAudioTime mkVideoFileReader
        = Except.error VideoError.NotOpenError ∧
    ¬ IsOpenE mkVideoFileReader = Except.error VideoError.NotOpenError := by
  decide

/-- Claim C3 (amended): on a closed reader, the checked metadata getters
Width, Height, FrameRate, FrameCount and CodecName and every decode and
seek call fail with NotOpenError, while CurrentVideoTime,
CurrentAudioTime and IsOpen perform no open-state check and return their
stored values without error. -/
theorem metadata_closed_amended (r : VideoFileReader)
    (h : r.videoContext = none) :
    Width r = Except.error VideoError.NotOpenError ∧
    Height r = Except.error VideoError.NotOpenError ∧
    FrameRate r = Except.error VideoError.NotOpenError ∧
    FrameCount r = Except.error VideoError.NotOpenError ∧
    CodecName r = Except.error VideoError.NotOpenError ∧
    ReadVideoFrame r = Except.error VideoError.NotOpenError ∧
    ReadVideoFrameU8 r = Except.error VideoError.NotOpenError ∧
    (∀ w hh, ReadVideoFrameWH r w hh
        = Except.error VideoError.NotOpenError) ∧
    (∀ w hh, ReadVideoFrameU8WH r w hh
        = Except.error VideoError.NotOpenError) ∧
    (∀ b, ReadAudioFrame r b = Except.error VideoError.NotOpenError) ∧
    (∀ t k, Seek r t k = Except.error VideoError.NotOpenError) ∧
    CurrentVideoTime r = Except.ok r.m_videoTime ∧
    CurrentAudioTime r = Except.ok r.m_audioTime ∧
    IsOpenE r = Except.ok false := by
  simp [Width, Height, FrameRate, FrameCount, CodecName,
        CheckIfVideoFileIsOpen, ReadVideoFrame, ReadVideoFrameU8,
        ReadVideoFrameWH, ReadVideoFrameU8WH, DecodeVideoFrame,
        DecodeVideoFrameU8, FetchVideoFrame, ReadAudioFrame, Seek,
        CurrentVideoTime, CurrentAudioTime, IsOpenE, IsOpen, h,
        Except.bind]

/-- Witness for the amended C3 at a never-opened reader. -/
theorem metadata_closed_amended_witness :
    Width mkVideoFileReader = Except.error VideoError.NotOpenError ∧
    Height mkVideoFileReader = Except.error VideoError.NotOpenError ∧
    FrameRate mkVideoFileReader = Except.error VideoError.NotOpenError ∧
    FrameCount mkVideoFileReader = Except.error VideoError.NotOpenError ∧
    CodecName mkVideoFileReader = Except.error VideoError.NotOpenError ∧
    ReadVideoFrame mkVideoFileReader
      = Except.error VideoError.NotOpenError ∧
    ReadVideoFrameU8 mkVideoFileReader
      = Except.error VideoError.NotOpenError ∧
    (∀ w hh, ReadVideoFrameWH mkVideoFileReader w hh
        = Except.error VideoError.NotOpenError) ∧
    (∀ w hh, ReadVideoFrameU8WH mkVideoFileReader w hh
        = Except.error VideoError.NotOpenError) ∧
    (∀ b, ReadAudioFrame mkVideoFileReader b
        = Except.error VideoError.NotOpenError) ∧
    (∀ t k, Seek mkVideoFileReader t k
        = Except.error VideoError.NotOpenError) ∧
    CurrentVideoTime mkVideoFileReader
      = Except.ok mkVideoFileReader.m_videoTime ∧
    CurrentAudioTime mkVideoFileReader
      = Except.ok mkVideoFileReader.m_audioTime ∧
    IsOpenE mkVideoFileReader = Except.ok false :=
  metadata_closed_amended mkVideoFileReader rfl

/-- Claim C2: while audio extraction is scoped to the current video frame,
audio never advances past video: a ReadAudioFrame(true) call leaves the
video clock untouched, returns exactly the bytes of those buffered packets
whose timestamps do not exceed the current video time (each such packet
timestamp is at most the most recently read video frame's timestamp), and
preserves the invariant that m_audioTime never exceeds m_videoTime. -/
theorem readAudio_never_past_video (r : VideoFileReader)
    (bytes : List Nat) (r' : VideoFileReader)
    (hline : r.m_audioTime ≤ r.m_videoTime)
    (h : ReadAudioFrame r true = Except.ok (bytes, r')) :
    r'.m_videoTime = r.m_videoTime ∧
    r'.m_audioTime ≤ r'.m_videoTime ∧
    bytes = audioBytes (audioPacketsReturned r) ∧
    ∀ p ∈ audioPacketsReturned r, p.pts ≤ r.m_videoTime := by
  rcases hv : r.videoContext with _ | vc
  · rw [ReadAudioFrame, hv] at h
    exact absurd h (by simp)
  · rcases ha : r.audioContext with _ | ac
    · rw [ReadAudioFrame, hv, ha] at h
      have h2 := Except.ok.inj h
      have hb : bytes = [] := (congrArg Prod.fst h2).symm
      have hr : r' = r := (congrArg Prod.snd h2).symm
      subst hr
      exact ⟨rfl, hline, by simp [hb, audioPacketsReturned, ha, audioBytes],
             by simp [audioPacketsReturned, ha]⟩
    · rw [ReadAudioFrame, hv, ha] at h
      simp only [if_pos rfl] at h
      have h2 := Except.ok.inj h
      have hb := (congrArg Prod.fst h2).symm
      have hr := (congrArg Prod.snd h2).symm
      subst hr
      refine ⟨rfl, ?_, ?_, ?_⟩
      · exact takeWhilePle_foldl_le r.m_videoTime
          (ac.packets.drop ac.pos) r.m_audioTime hline
      · simpa [audioPacketsReturned, ha] using hb
      · intro p hp
        rw [audioPacketsReturned, ha] at hp
        exact takeWhilePle_mem r.m_videoTime (ac.packets.drop ac.pos) p hp

/-- Witness for C2: one audio pull on the sample reader after two video
frames; only the packet at second 0 is returned, below the video clock at
second 1. -/
theorem readAudio_never_past_video_witness :
    sampleAudioAfter.m_videoTime = sampleReaderMid.m_videoTime ∧
    sampleAudioAfter.m_audioTime ≤ sampleAudioAfter.m_videoTime ∧
    [1, 2] = audioBytes (audioPacketsReturned sampleReaderMid) ∧
    ∀ p ∈ audioPacketsReturned sampleReaderMid,
      p.pts ≤ sampleReaderMid.m_videoTime :=
  readAudio_never_past_video sampleReaderMid [1, 2] sampleAudioAfter
    (by decide) (by decide)

/-- Claim C1: on a stream whose frames are presented in nondecreasing
timestamp order, a successful Seek with seekKeyFrame true returns, as an
ok result (possibly earlier than requested, not an error), the actual
timestamp of the nearest keyframe at or before the target time: it is a
keyframe timestamp at most the target, and no keyframe at or before the
target has a later timestamp. A successful Seek with seekKeyFrame false
returns the exact timestamp of the first frame at or after the target: it
is at or after the target, the next frame read carries exactly that
timestamp, and no frame of the stream at or after the target has an
earlier timestamp. -/
theorem seek_contract (r : VideoFileReader) (t : Rat)
    (hsort : List.Pairwise (fun a b => a.pts ≤ b.pts) (streamFrames r)) :
    (∀ ts r', Seek r t true = Except.ok (ts, r') →
        ts ≤ t ∧
        (∃ g ∈ streamFrames r, g.keyFrame = true ∧ g.pts = ts) ∧
        ∀ g ∈ streamFrames r, g.keyFrame = true → g.pts ≤ t →
          g.pts ≤ ts) ∧
    (∀ ts r', Seek r t false = Except.ok (ts, r') →
        t ≤ ts ∧
        (∃ g r'', FetchVideoFrame r' = Except.ok (some g, r'') ∧
          g.pts = ts) ∧
        ∀ g ∈ streamFrames r, t ≤ g.pts → ts ≤ g.pts) := by
  constructor <;> intro ts r' h
  · rcases hv : r.videoContext with _ | vc
    · simp [Seek, hv] at h
    · simp only [streamFrames, hv] at hsort ⊢
      simp only [Seek, hv] at h
      rcases hk : lastKeyFrameAtOrBefore t vc.allFrames with _ | ⟨k, kfr⟩ <;>
        rw [hk] at h
      · simp at h
      · simp only [if_pos rfl] at h
        have h2 := Except.ok.inj h
        have hts : kfr.pts = ts := congrArg Prod.fst h2
        rcases lastKeyAux_some t vc.allFrames 0 none k kfr hk with hacc | hg
        · exact Option.noConfusion hacc
        · refine ⟨hts ▸ hg.2.2, ⟨kfr, hg.1, hg.2.1, hts⟩, ?_⟩
          intro g hgmem hgkey hgle
          have hmax :=
            lastKeyAux_ge t vc.allFrames 0 none k kfr hsort hk g hgmem
              hgkey hgle
          exact hts ▸ hmax
  · rcases hv : r.videoContext with _ | vc
    · simp [Seek, hv] at h
    · simp only [streamFrames, hv] at hsort ⊢
      simp only [Seek, hv] at h
      rcases hk : lastKeyFrameAtOrBefore t vc.allFrames with _ | ⟨k, kfr⟩ <;>
        rw [hk] at h
      · simp at h
      · simp only [Bool.false_eq_true, if_false] at h
        rcases hfa : firstAtOrAfter t (vc.allFrames.drop k)
          with _ | ⟨j, f⟩ <;> rw [hfa] at h
        · simp at h
        · have h2 := Except.ok.inj h
          injection h2 with hts hr'
          rcases firstAtOrAfter_some t (vc.allFrames.drop k) j f hfa
            with ⟨hle, rest, hdrop⟩
          have hdrop2 : vc.allFrames.drop (k + j) = f :: rest := by
            rw [← List.drop_drop]
            exact hdrop
          have hkle : kfr.pts ≤ t := by
            rcases lastKeyAux_some t vc.allFrames 0 none k kfr hk
              with hacc | hg
            · exact Option.noConfusion hacc
            · exact hg.2.2
          have hkpos : ∃ tk, vc.allFrames.drop k = kfr :: tk :=
            lastKeyAux_pos t vc.allFrames 0 none vc.allFrames k kfr
              (List.drop_zero vc.allFrames)
              (fun j' g' hsome => Option.noConfusion hsome) hk
          refine ⟨hts ▸ hle,
            ⟨f,
             { r with
                 videoContext := some { allFrames := vc.allFrames,
                                        pos := k + j + 1 },
                 m_videoTime := f.pts, m_audioTime := f.pts }, ?_, hts⟩, ?_⟩
          · rw [← hr']
            simp [FetchVideoFrame, hdrop2]
          · intro g hgmem hgt
            have hmin :=
              seekExact_min t vc.allFrames k j kfr f hsort hkpos hkle hfa
                g hgmem hgt
            exact hts ▸ hmin

/-- Witness for C1 on the sample stream (timestamps 0, 1, 2, 3, keyframes
at 0 and 2, sorted): seeking to second 3 with seekKeyFrame true lands on
the keyframe at second 2, the nearest one at or before 3; with
seekKeyFrame false it lands exactly on the frame at second 3, the first
one at or after 3, which is also the next frame read. -/
theorem seek_contract_witness :
    ((2 : Rat) ≤ 3 ∧
      (∃ g ∈ streamFrames sampleReader, g.keyFrame = true ∧ g.pts = 2) ∧
      (∀ g ∈ streamFrames sampleReader, g.keyFrame = true → g.pts ≤ 3 →
        g.pts ≤ 2)) ∧
    ((3 : Rat) ≤ 3 ∧
      (∃ g r'', FetchVideoFrame sampleSeekFalse = Except.ok (some g, r'') ∧
        g.pts = 3) ∧
      (∀ g ∈ streamFrames sampleReader, (3 : Rat) ≤ g.pts →
        (3 : Rat) ≤ g.pts)) :=
  ⟨(seek_contract sampleReader 3 (by decide)).1 2 sampleSeekTrue
      (by decide),
   (seek_contract sampleReader 3 (by decide)).2 3 sampleSeekFalse
      (by decide)⟩

end Geb.Video.FFMPEG
